import Mathlib

set_option autoImplicit false

/-!
Verification of the directory-object abstraction layer of the adldap provider:
the DN algebra (parse / serialize / parent / leaf / equality), the directory
client's existence checks, and the entry / account operations (changeDN, move,
attribute updates, password encoding, service-principal set operations,
recursive OU creation).

The Go sources embedded here are `internal/provider/client_dn.go` (the LdapDN,
LdapAccount and LdapEntry receivers) and the current `client.go` (LdapClient
receivers).  The go-ldap library (v3.2.4) and the LDAP server are external
collaborators: `ParseDN`, DN equality and the server's response to the equality
filters used by the client are modelled from the spec and the library's
documented grammar, with the modelling restrictions stated on each definition.
-/

deriving instance DecidableEq for Except

namespace Adldap

/-- One `type=value` pair of a relative distinguished name.
Mirrors go-ldap's `AttributeTypeAndValue` (fields `Type`, `Value`). -/
structure AttributeTypeAndValue where
  ty : String
  value : String
deriving Repr, DecidableEq

/-- A relative DN: a list of attribute pairs.  go-ldap's `RelativeDN.Attributes`.
The parser only ever produces non-empty lists. -/
abbrev RelativeDN := List AttributeTypeAndValue

/-- Characters that may follow a backslash escape in the DN grammar
(go-ldap `ParseDN`, escaped-character switch). -/
def specialChar (c : Char) : Bool :=
  c = ' ' || c = '"' || c = '#' || c = '+' || c = ',' || c = ';' ||
  c = '<' || c = '=' || c = '>' || c = '\\'

/-- go-ldap's `stringFromBuffer`: the buffer is kept most-recent-first here, and
`trail` counts the unescaped trailing spaces to trim. -/
def strFromBuffer (buf : List Char) (trail : Nat) : String :=
  String.mk ((buf.drop trail).reverse)

/-- Modelled from the spec: the character loop of go-ldap v3.2.4 `ParseDN`,
which the repository uses for all DN parsing and which is not under `src/`.
State: remaining input, escaping flag, reversed buffer, count of unescaped
trailing spaces in the buffer, current attribute type (empty string when not
yet seen, as in the Go struct), attributes of the current RDN, finished RDNs.
Components are separated by unescaped `,` (or joined into multi-valued RDNs by
unescaped `+`); the first unescaped `=` of a component ends its type; a
backslash escapes the next special character; unescaped leading spaces are
skipped and unescaped trailing spaces trimmed.  Modelling restrictions: the
library's hexadecimal escape pairs and `#`-introduced BER values are rejected
instead of decoded, and `;` is an ordinary character; no theorem below
exercises those inputs. -/
def ParseDNLoop : List Char → Bool → List Char → Nat → String →
    List AttributeTypeAndValue → List RelativeDN → Except String (List RelativeDN)
  | [], _, buf, trail, curType, curAttrs, acc =>
    if curType = "" then .error "DN ended with incomplete type, value pair"
    else .ok (acc ++ [curAttrs ++ [⟨curType, strFromBuffer buf trail⟩]])
  | c :: cs, esc, buf, trail, curType, curAttrs, acc =>
    if esc then
      if specialChar c then ParseDNLoop cs false (c :: buf) trail curType curAttrs acc
      else .error "hex escapes are outside this model"
    else if c = '\\' then ParseDNLoop cs true buf 0 curType curAttrs acc
    else if c = '=' then
      if cs.headD ' ' = '#' then .error "BER values are outside this model"
      else ParseDNLoop cs false [] 0 (strFromBuffer buf trail) curAttrs acc
    else if c = ',' then
      if curType = "" then .error "incomplete type, value pair"
      else ParseDNLoop cs false [] 0 "" []
        (acc ++ [curAttrs ++ [⟨curType, strFromBuffer buf trail⟩]])
    else if c = '+' then
      if curType = "" then .error "incomplete type, value pair"
      else ParseDNLoop cs false [] 0 ""
        (curAttrs ++ [⟨curType, strFromBuffer buf trail⟩]) acc
    else if c = ' ' && buf = [] then ParseDNLoop cs false buf trail curType curAttrs acc
    else ParseDNLoop cs false (c :: buf) (if c = ' ' then trail + 1 else 0)
      curType curAttrs acc

/-- Modelled from the spec: go-ldap v3.2.4 `ParseDN`.  The empty string parses
to the empty DN (the Go loop body never runs and the final flush is guarded by
`len(str) > 0`). -/
def ParseDN (s : String) : Except String (List RelativeDN) :=
  if s.data = [] then .ok [] else ParseDNLoop s.data false [] 0 "" [] []

/-- The `type=value` segment of one RDN: `JoinRDNs` reads `rdn.Attributes[0]`;
the Go code would panic on an RDN with no attributes, which the parser never
produces; the model totalises with an empty pair. -/
def segmentOf (r : RelativeDN) : String :=
  (r.headD ⟨"", ""⟩).ty ++ "=" ++ (r.headD ⟨"", ""⟩).value

/-- `JoinRDNs` (client_dn.go): each RDN's first attribute printed as
`type=value`, joined with commas (`strings.Join` with separator ","),
written here by recursion on the list. -/
def JoinRDNs : List RelativeDN → String
  | [] => ""
  | [r] => segmentOf r
  | r :: rest => segmentOf r ++ "," ++ JoinRDNs rest

/-- `LdapDN.RDN` (client_dn.go line 44): `JoinRDNs` of the first RDN alone.
Go indexes `dn.RDNs[0]` and would panic on an empty DN; the model yields "". -/
def RDN (dn : List RelativeDN) : String :=
  JoinRDNs (dn.take 1)

/-- `LdapDN.ParentDN` (client_dn.go line 48): the empty string when fewer than
two RDNs remain, else the join of all RDNs but the first. -/
def ParentDN (dn : List RelativeDN) : String :=
  if dn.length < 2 then "" else JoinRDNs (dn.drop 1)

/-- go-ldap `AttributeTypeAndValue` comparison used by DN equality: the claims
below never exercise case folding of types, so exact equality is used. -/
def atvEqual (a b : AttributeTypeAndValue) : Bool :=
  a.ty = b.ty && a.value = b.value

/-- go-ldap `RelativeDN.hasAllAttributes`. -/
def hasAllAttributes (mine others : List AttributeTypeAndValue) : Bool :=
  others.all fun attr => mine.any fun myattr => atvEqual myattr attr

/-- go-ldap `RelativeDN.Equal`: same attribute count and mutual containment. -/
def rdnEqual (a b : RelativeDN) : Bool :=
  a.length = b.length && hasAllAttributes a b && hasAllAttributes b a

/-- Modelled from the spec: go-ldap `DN.Equal` — positionwise RDN equality. -/
def DNEqual (a b : List RelativeDN) : Bool :=
  a.length = b.length && (a.zip b).all fun p => rdnEqual p.1 p.2

/-- Modelled from the spec: go-ldap `DN.AncestorOf` — strictly fewer RDNs and
the ancestor's RDNs equal the tail of the descendant's. -/
def AncestorOf (d other : List RelativeDN) : Bool :=
  if d.length ≥ other.length then false
  else DNEqual d (other.drop (other.length - d.length))

/-! ## The directory and the protocol requests

The LDAP server is an external collaborator.  A directory is a list of
objects, each carrying its DN string, its object classes and its attributes;
the server's answer to the equality filters built by the client
(`(&(objectClass=C)(distinguishedName=D))`) is modelled by DN matching of the
stored DN against the filter value.  Directory-mutating protocol requests
(modify, modify-DN, add, delete) are recorded as a trace of operations; the
claims under study are about which requests are issued and with what
arguments. -/

/-- One attribute of a directory entry (`ldap.EntryAttribute`: name, values). -/
structure EntryAttribute where
  name : String
  values : List String
deriving Repr, DecidableEq

/-- One object held by the directory server. -/
structure DirObject where
  dn : String
  objectClasses : List String
  attrs : List EntryAttribute
deriving Repr, DecidableEq

abbrev Directory := List DirObject

/-- A change inside a modify request (`ldap.ModifyRequest`):
`Replace`, `Add` and `Delete` on one attribute. -/
inductive Change where
  | replace (attrName : String) (vals : List String)
  | addVals (attrName : String) (vals : List String)
  | delVals (attrName : String) (vals : List String)
deriving Repr, DecidableEq

/-- A directory-mutating protocol request issued by the client. -/
inductive Op where
  | modify (dn : String) (changes : List Change)
  | modifyDN (dn newRDN : String) (deleteOldRDN : Bool) (newSuperior : String)
  | addReq (dn : String) (objectClass : String)
  | delReq (dn : String)
deriving Repr, DecidableEq

/-- Modelled from the spec: the server matches the `distinguishedName=`
equality filter by DN equality of the stored DN and the filter value. -/
def dnMatches (objDN filterDN : String) : Bool :=
  match ParseDN objDN, ParseDN filterDN with
  | .ok a, .ok b => DNEqual a b
  | _, _ => false

/-- Whether an object satisfies `(objectClass=oc)`; `*` matches everything. -/
def classMatches (oc : String) (o : DirObject) : Bool :=
  oc = "*" || o.objectClasses.contains oc

/-- Modelled from the spec: the result set of `LdapSearch` for the filter
`(&(objectClass=oc)(distinguishedName=dn))`. -/
def searchClassDN (dir : Directory) (oc dn : String) : List DirObject :=
  dir.filter fun o => classMatches oc o && dnMatches o.dn dn

/-- Whether an object is a container (`organizationalUnit`, `container` or
`domain`), as in the filter of `LdapClient.ContainerExists`. -/
def isContainerClass (o : DirObject) : Bool :=
  o.objectClasses.contains "organizationalUnit" ||
  o.objectClasses.contains "container" || o.objectClasses.contains "domain"

/-- The result set for `ContainerExists`'s filter. -/
def searchContainerDN (dir : Directory) (dn : String) : List DirObject :=
  dir.filter fun o => isContainerClass o && dnMatches o.dn dn

/-- The Go error text `"too many results (%d) returned ..."`. -/
def tooManyResultsMsg (n : Nat) : String :=
  "too many results (" ++ toString n ++ ") returned, expected 1"

/-- `LdapClient.ObjectExists` (client.go): search by object class and DN;
more than one result is an error, zero is `false`, one is `true`. -/
def ObjectExists (dir : Directory) (objectDN objectClass : String) :
    Except String Bool :=
  let results := searchClassDN dir objectClass objectDN
  if results.length > 1 then .error (tooManyResultsMsg results.length)
  else if results.length = 0 then .ok false
  else .ok true

/-- `LdapClient.ContainerExists` (client.go): like `ObjectExists` with the
container object-class disjunction. -/
def ContainerExists (dir : Directory) (objectDN : String) : Except String Bool :=
  let results := searchContainerDN dir objectDN
  if results.length > 1 then .error (tooManyResultsMsg results.length)
  else if results.length = 0 then .ok false
  else .ok true

/-! ## Entries -/

/-- `LdapEntry` (client_dn.go): the wrapped `ldap.Entry` (its DN and cached
attributes) together with the requested-attributes list; the client reference
is passed explicitly as the `Directory` argument of each operation. -/
structure LdapEntry where
  dn : String
  attrs : List EntryAttribute
  requestedAttributes : List String
deriving Repr, DecidableEq

/-- `ldap.Entry.GetAttributeValues`: the values of the first attribute with
the given name, or the empty list. -/
def entryGetAttributeValues (e : LdapEntry) (name : String) : List String :=
  match e.attrs.find? fun a => a.name = name with
  | some a => a.values
  | none => []

/-- The attributes the server returns for a fetch: an empty requested list
means all attributes, otherwise the object's attributes restricted to the
requested names. -/
def fetchAttrs (o : DirObject) (requested : List String) : List EntryAttribute :=
  if requested = [] then o.attrs
  else o.attrs.filter fun a => requested.contains a.name

/-- `LdapClient.GetObjectByDN` via `GetObject`/`GetEntry` (client.go): search
for `(&(objectClass=*)(distinguishedName=dn))`; more than one result or none
is an error, else the entry is built from the single result. -/
def GetObjectByDN (dir : Directory) (distinguishedName : String)
    (attributes : List String) : Except String LdapEntry :=
  let results := searchClassDN dir "*" distinguishedName
  if results.length > 1 then .error (tooManyResultsMsg results.length)
  else
    match results with
    | [] => .error ("no entry returned for object " ++ distinguishedName)
    | o :: _ => .ok ⟨o.dn, fetchAttrs o attributes, attributes⟩

/-- `LdapEntry.GetAttributeValues` (client_dn.go line 374): if the attribute
is not among the cached ones, append it to the requested list and refresh the
entry from the directory first; then read the (possibly refreshed) cache.
Returns the values together with the entry state after the call. -/
def GetAttributeValuesW (dir : Directory) (e : LdapEntry) (name : String) :
    Except String (List String × LdapEntry) :=
  let attrPresent := e.attrs.any fun a => a.name = name
  if attrPresent then .ok (entryGetAttributeValues e name, e)
  else
    match GetObjectByDN dir e.dn (e.requestedAttributes ++ [name]) with
    | .error m => .error ("error refreshing LdapEntry: " ++ m)
    | .ok e2 => .ok (entryGetAttributeValues e2 name, e2)

/-- `LdapEntry.GetAttributeValue` (client_dn.go line 363): the first value
when there is one, else the empty string; errors only propagate from the
fetch. -/
def GetAttributeValue (dir : Directory) (e : LdapEntry) (name : String) :
    Except String (String × LdapEntry) :=
  match GetAttributeValuesW dir e name with
  | .error m => .error m
  | .ok (v :: _, e2) => .ok (v, e2)
  | .ok ([], e2) => .ok ("", e2)

/-! ## Attribute updates -/

/-- `sort.Strings`. -/
def sortStrings (l : List String) : List String :=
  l.insertionSort (· ≤ ·)

/-- `stringSlicesEqual` (client.go line 72): sorts both slices and compares
them elementwise after a length check — i.e. equality of sorted lists.
(The Go nil-versus-empty-slice distinction is not representable here;
no claim depends on it.) -/
def stringSlicesEqual (a b : List String) : Bool :=
  sortStrings a = sortStrings b

/-- `sliceIsSubset` (client.go): equal lengths fall back to
`stringSlicesEqual`; a longer candidate is never a subset; otherwise every
element of `subset` must occur in `parent`. -/
def sliceIsSubset (parent subset : List String) : Bool :=
  if subset.length = parent.length then stringSlicesEqual parent subset
  else if subset.length > parent.length then false
  else subset.all fun s => parent.any fun p => p = s

/-- `LdapEntry.UpdateAttributes` (client_dn.go line 411): for each attribute
of the map, a `Replace` change is added only when the new values differ from
the **cached** values as sorted lists; a modify request is issued only when at
least one change was added.  The cached entry is not refreshed or patched by
the call.  The Go map is modelled as an association list (Go map iteration
order is unspecified; only the set of changes matters to the claims). -/
def UpdateAttributes (e : LdapEntry)
    (attributeMap : List (String × List String)) : List Op :=
  let changes :=
    (attributeMap.filter fun p =>
      !stringSlicesEqual (entryGetAttributeValues e p.1) p.2).map
      fun p => Change.replace p.1 p.2
  if changes = [] then [] else [Op.modify e.dn changes]

/-- `LdapEntry.UpdateAttribute`: a one-entry map. -/
def UpdateAttribute (e : LdapEntry) (name : String) (values : List String) :
    List Op :=
  UpdateAttributes e [(name, values)]

/-! ## changeDN / move -/

/-- `LdapEntry.ChangeDN` (client_dn.go line 291).  The existence of the target
DN is checked **first**; only then are the DNs parsed and compared.  When they
differ: same parent string means an empty superior and no container check,
otherwise the new parent must exist as a container; a single modify-DN request
is then issued.  Returns the trace of issued requests. -/
def ChangeDN (dir : Directory) (e : LdapEntry) (newDistinguishedName : String) :
    Except String (List Op) :=
  match ObjectExists dir newDistinguishedName "*" with
  | .error m => .error m
  | .ok true =>
    .error ("rename failed: an object with distinguishedName " ++
      newDistinguishedName ++ " already exists")
  | .ok false =>
    match ParseDN e.dn with
    | .error m => .error m
    | .ok oldDN =>
      match ParseDN newDistinguishedName with
      | .error m => .error m
      | .ok newDN =>
        let newRDN := RDN newDN
        let newParentDN := ParentDN newDN
        if DNEqual oldDN newDN then .ok []
        else if ParentDN oldDN = newParentDN then
          .ok [Op.modifyDN e.dn newRDN true ""]
        else
          match ContainerExists dir newParentDN with
          | .error m => .error m
          | .ok false =>
            .error ("cannot move object " ++ e.dn ++
              " to non-existent or non-container object " ++ newParentDN)
          | .ok true => .ok [Op.modifyDN e.dn newRDN true newParentDN]

/-- `LdapEntry.Move` (client_dn.go line 257): build the new DN from the
entry's first RDN and the destination's RDNs, then call `ChangeDN` —
whose returned error the Go code **discards** (`e.ChangeDN(newDN)` with the
result unused) before returning `nil`.  The requests `ChangeDN` issued before
succeeding are still issued; on a `ChangeDN` error no request was issued. -/
def Move (dir : Directory) (e : LdapEntry) (destinationContainer : String) :
    Except String (List Op) :=
  match ParseDN e.dn with
  | .error m => .error m
  | .ok dn =>
    match ParseDN destinationContainer with
    | .error m => .error m
    | .ok destinationDN =>
      let newDN := JoinRDNs (dn.take 1 ++ destinationDN)
      .ok (match ChangeDN dir e newDN with
        | .ok ops => ops
        | .error _ => [])

/-! ## Password encoding -/

/-- Modelled from the spec: Go's `%q` quoting of one character
(`strconv.Quote`): quote and backslash are backslash-escaped, the common
control characters use their named escapes, other ASCII control characters use
a two-digit hexadecimal escape, printable characters stand for themselves.
Non-ASCII code points are kept literal (exact for printable ones; the
non-printable ones would be `\u`-escaped by Go and are used by no theorem). -/
def goQuoteChar (c : Char) : List Char :=
  if c = '"' then ['\\', '"']
  else if c = '\\' then ['\\', '\\']
  else if c = '\x07' then ['\\', 'a']
  else if c = '\x08' then ['\\', 'b']
  else if c = '\x0c' then ['\\', 'f']
  else if c = '\n' then ['\\', 'n']
  else if c = '\r' then ['\\', 'r']
  else if c = '\t' then ['\\', 't']
  else if c = '\x0b' then ['\\', 'v']
  else if c.toNat < 0x20 || c.toNat = 0x7f then
    ['\\', 'x', Nat.digitChar (c.toNat / 16), Nat.digitChar (c.toNat % 16)]
  else [c]

/-- Modelled from the spec: Go's `fmt.Sprintf("%q", s)` — the string rendered
in Go quoted syntax: a double quote, each character escaped as needed, a
closing double quote. -/
def goQuote (s : String) : String :=
  String.mk ('"' :: (s.data.flatMap goQuoteChar) ++ ['"'])

/-- UTF-16 code units of one character (little-endian byte pairs): basic-plane
code points give one unit, the rest a surrogate pair. -/
def utf16leChar (c : Char) : List Nat :=
  if c.val < 0x10000 then [c.toNat % 256, c.toNat / 256]
  else
    let v := c.toNat - 0x10000
    let hi := 0xd800 + v / 0x400
    let lo := 0xdc00 + v % 0x400
    [hi % 256, hi / 256, lo % 256, lo / 256]

/-- Modelled from the spec: the UTF-16 little-endian encoder
(`unicode.UTF16(LittleEndian, IgnoreBOM)`), as a byte sequence. -/
def utf16leBytes (s : String) : List Nat :=
  s.data.flatMap utf16leChar

/-- `encodePassword` (client.go line 36): UTF-16LE bytes of the Go-quoted
(`%q`) password.  The Go function returns these bytes as a Go string; the
byte sequence is the observable value. -/
def encodePassword (password : String) : List Nat :=
  utf16leBytes (goQuote password)

/-- The encoded password as an attribute value: each byte carried as one
character, so that byte-string equality coincides with value equality. -/
def encodePasswordValue (password : String) : String :=
  String.mk ((encodePassword password).map Char.ofNat)

/-- `LdapAccount.SetPassword` (client_dn.go line 150): encode, then
`UpdateAttribute "unicodePwd"` with the singleton encoded value. -/
def SetPassword (e : LdapEntry) (password : String) : List Op :=
  UpdateAttribute e "unicodePwd" [encodePasswordValue password]

/-! ## Service principals -/

/-- `LdapEntry.HasAttributeWithValues` (client_dn.go line 397): subset test
against the cached values. -/
def HasAttributeWithValues (e : LdapEntry) (name : String)
    (values : List String) : Bool :=
  sliceIsSubset (entryGetAttributeValues e name) values

/-- `LdapEntry.AddAttributeWithValues` (client_dn.go line 346): fails when the
values are already cached, else issues one modify request with an `Add`
change. -/
def AddAttributeWithValues (e : LdapEntry) (name : String)
    (values : List String) : Except String (List Op) :=
  if HasAttributeWithValues e name values then
    .error ("attribute " ++ name ++ " with value already exists")
  else .ok [Op.modify e.dn [Change.addVals name values]]

/-- `LdapAccount.AddServicePrincipal` (client_dn.go line 164). -/
def AddServicePrincipal (e : LdapEntry) (spn : String) :
    Except String (List Op) :=
  AddAttributeWithValues e "servicePrincipalName" [spn]

/-- `LdapAccount.HasServicePrincipal` (client_dn.go line 193): fetch the SPN
values (possibly refreshing) and scan for the value. -/
def HasServicePrincipal (dir : Directory) (e : LdapEntry) (spn : String) :
    Except String (Bool × LdapEntry) :=
  match GetAttributeValuesW dir e "servicePrincipalName" with
  | .error m => .error m
  | .ok (spns, e2) => .ok (spns.any (· = spn), e2)

/-- `LdapEntry.RemoveAttributeValue` (client_dn.go line 429): one modify
request with a `Delete` change for just the given values. -/
def RemoveAttributeValue (e : LdapEntry) (name : String)
    (value : List String) : List Op :=
  [Op.modify e.dn [Change.delVals name value]]

/-- `LdapAccount.RemoveServicePrincipal` (client_dn.go line 173): a no-op when
the SPN is absent, else a value-level delete of just that SPN. -/
def RemoveServicePrincipal (dir : Directory) (e : LdapEntry) (spn : String) :
    Except String (List Op) :=
  match HasServicePrincipal dir e spn with
  | .error m => .error m
  | .ok (true, e2) => .ok (RemoveAttributeValue e2 "servicePrincipalName" [spn])
  | .ok (false, _) => .ok []

/-! ## Organizational-unit creation

`CreateOUAndParents` (client.go line 336) is the one recursive function of the
core.  Lean requires a termination argument, which is exactly what claim C9 is
about, so the recursion is given explicit fuel: `none` means the recursion
depth exceeded the fuel, `some` carries the directory after the call and the
call's outcome.  The Go code discards the *result* of the recursive call but
the objects the recursion added to the server persist, so the directory is
threaded through. -/

/-- The first attribute pair of a parsed DN, as read by `CreateOU` via
`parsedOU.RDNs[0].Attributes[0]` (Go panics on an empty DN; the model
totalises with an empty pair, on a branch no theorem relies on). -/
def headATV (dn : List RelativeDN) : AttributeTypeAndValue :=
  (dn.headD []).headD ⟨"", ""⟩

/-- `LdapClient.CreateObject` (client.go line 275) restricted to what
`CreateOU` passes (no extra attributes): existence pre-check, add request, and
the consistency re-fetch of the created object. -/
def CreateObject (dir : Directory) (distinguishedName objectClass : String) :
    Directory × Except String Unit :=
  match ObjectExists dir distinguishedName "*" with
  | .error m => (dir, .error m)
  | .ok true => (dir, .error ("object " ++ distinguishedName ++ " already exists"))
  | .ok false =>
    let dir2 := dir ++ [⟨distinguishedName, [objectClass], []⟩]
    match GetObjectByDN dir2 distinguishedName [] with
    | .error m => (dir2, .error m)
    | .ok _ => (dir2, .ok ())

/-- `LdapClient.GetOU` (client.go line 236): fetch by DN with object class
`organizationalUnit`. -/
def GetOU (dir : Directory) (distinguishedName : String) : Except String Unit :=
  let results := searchClassDN dir "organizationalUnit" distinguishedName
  if results.length > 1 then .error (tooManyResultsMsg results.length)
  else if results.length = 0 then
    .error ("no entry returned for organizationalUnit object " ++ distinguishedName)
  else .ok ()

/-- `LdapClient.CreateOU` (client.go line 314): the search base must be a
strict ancestor and the leaf type must be `OU`; then create and re-fetch.
The Go code discards the two `ParseDN` errors (`parsed..., _ := ...`),
defaulting to an empty DN, as the model does. -/
def CreateOU (searchBase : String) (dir : Directory)
    (distinguishedName : String) : Directory × Except String Unit :=
  let parsedSearchBase := (ParseDN searchBase).toOption.getD []
  let parsedOU := (ParseDN distinguishedName).toOption.getD []
  if !AncestorOf parsedSearchBase parsedOU then
    (dir, .error ("organizational unit " ++ distinguishedName ++
      " is not an ancestor of search base " ++ searchBase))
  else if (headATV parsedOU).ty ≠ "OU" then
    (dir, .error (distinguishedName ++ " is not an OU distinguished name"))
  else
    match CreateObject dir distinguishedName "organizationalUnit" with
    | (dir2, .error m) => (dir2, .error m)
    | (dir2, .ok _) =>
      match GetOU dir2 distinguishedName with
      | .error m => (dir2, .error m)
      | .ok _ => (dir2, .ok ())

/-- `LdapClient.CreateOUAndParents` (client.go line 336) with fuel: parse the
DN, take its parent string, and when the parent does not already exist recurse
on it first — discarding the recursive call's outcome (Go ignores both return
values) but keeping the directory it grew — then `CreateOU` the DN itself.
`none` means the call did not finish within `fuel` nested calls. -/
def CreateOUAndParents (searchBase : String) (dir : Directory) (fuel : Nat)
    (distinguishedName : String) : Option (Directory × Except String Unit) :=
  match fuel with
  | 0 => none
  | fuel + 1 =>
    match ParseDN distinguishedName with
    | .error m => some (dir, .error m)
    | .ok dn =>
      let parentOU := ParentDN dn
      match ObjectExists dir parentOU "*" with
      | .error m => some (dir, .error m)
      | .ok parentExists =>
        if parentExists then some (CreateOU searchBase dir distinguishedName)
        else
          match CreateOUAndParents searchBase dir fuel parentOU with
          | none => none
          | some (dir2, _) => some (CreateOU searchBase dir2 distinguishedName)

/-! ## Canonical DNs

The round-trip and termination statements hold on DN strings in canonical
form: single-attribute components whose type and value contain no character
that the grammar treats specially. -/

/-- A character the DN grammar passes through unchanged: not a separator,
join, type/value delimiter, escape, space or hash. -/
def plainChar (c : Char) : Prop :=
  c ≠ ',' ∧ c ≠ '+' ∧ c ≠ '=' ∧ c ≠ '\\' ∧ c ≠ ' ' ∧ c ≠ '#'

instance plainCharDecidable : DecidablePred plainChar := fun _ => by
  unfold plainChar; infer_instance

/-- A `type=value` pair with a non-empty type and only plain characters. -/
def goodATV (a : AttributeTypeAndValue) : Prop :=
  a.ty ≠ "" ∧ (∀ c ∈ a.ty.data, plainChar c) ∧ ∀ c ∈ a.value.data, plainChar c

instance goodATVDecidable (a : AttributeTypeAndValue) : Decidable (goodATV a) := by
  unfold goodATV; infer_instance

/-- A non-empty DN whose RDNs each hold exactly one good attribute pair. -/
def canonicalDN (D : List RelativeDN) : Prop :=
  D ≠ [] ∧ ∀ r ∈ D, r.length = 1 ∧ ∀ a ∈ r, goodATV a

instance canonicalDNDecidable (D : List RelativeDN) : Decidable (canonicalDN D) := by
  unfold canonicalDN; infer_instance

/-! ## Concrete states used by the counterexamples and witnesses -/

/-- An entry `CN=a` inside `OU=x` of domain `DC=b`. -/
def sampleEntry : LdapEntry := ⟨"CN=a,OU=x,DC=b", [], []⟩

/-- A directory holding `sampleEntry`, its organizational unit and the
domain — and no `OU=y,DC=b`. -/
def sampleDir : Directory :=
  [⟨"CN=a,OU=x,DC=b", ["user"], []⟩,
   ⟨"OU=x,DC=b", ["organizationalUnit"], []⟩,
   ⟨"DC=b", ["domain"], []⟩]

/-- A directory with two objects under the same DN. -/
def dupDir : Directory :=
  [⟨"CN=dup,DC=b", ["user"], []⟩, ⟨"CN=dup,DC=b", ["user"], []⟩]

/-- An entry whose cached `description` is `["x"]`. -/
def staleEntry : LdapEntry := ⟨"CN=a,DC=b", [⟨"description", ["x"]⟩], ["description"]⟩

/-- An account entry with two cached service principals. -/
def spnEntry : LdapEntry :=
  ⟨"CN=svc,DC=b", [⟨"servicePrincipalName", ["HTTP/a", "HTTP/b"]⟩],
   ["servicePrincipalName"]⟩

/-- A directory with one user object carrying only a `cn` attribute. -/
def userDir : Directory := [⟨"CN=u,DC=b", ["user"], [⟨"cn", ["u"]⟩]⟩]

/-- The user entry of `userDir` with `mail` never requested. -/
def userEntry : LdapEntry := ⟨"CN=u,DC=b", [⟨"cn", ["u"]⟩], ["cn"]⟩

/-- An entry whose cached `mail` attribute's first value is the empty
string. -/
def emptyMailEntry : LdapEntry := ⟨"CN=u,DC=b", [⟨"mail", [""]⟩], ["mail"]⟩

/-- A search base whose single component's value contains an escaped comma
and equals sign: `OU=x\,DC\=y`. -/
def escBase : String := "OU=x\\,DC\\=y"

/-- A directory holding only the object at `escBase`. -/
def escDir : Directory := [⟨"OU=x\\,DC\\=y", ["organizationalUnit"], []⟩]

/-- An OU DN directly under `escBase`. -/
def escDN : String := "OU=p,OU=x\\,DC\\=y"

/-- A canonical three-component OU DN. -/
def canonDN : List RelativeDN := [[⟨"OU", "a"⟩], [⟨"OU", "b"⟩], [⟨"DC", "c"⟩]]

/-- A directory holding only the domain `DC=c`. -/
def domainDir : Directory := [⟨"DC=c", ["domain"], []⟩]

/-! # Theorems -/

theorem string_data_append (a b : String) : (a ++ b).data = a.data ++ b.data := by
  cases a; cases b; rfl

/-! ## C5 — parent of short DNs -/

/-- C5 (counterexample): the current `LdapDN.ParentDN` applied to the empty DN
silently returns the empty string, with no error anywhere: `NewLdapDN` accepts
the empty string (go-ldap parses `""` to a DN with no RDNs and no error) and
`ParentDN` has no failure path at all — contrary to the claimed "operation on
empty DN" error, which only the historical `getParentObject` variant produces
(by aborting the whole process). -/
theorem parentDN_empty_dn_silently_empty :
    ParseDN "" = Except.ok ([] : List RelativeDN) ∧ ParentDN [] = "" := by
  exact ⟨rfl, rfl⟩

/-- C5 (amended): the parent of any DN with fewer than two components — the
single-component DNs of the claim, and likewise the empty DN — is the empty
string, returned silently; `ParentDN` cannot fail. -/
theorem parentDN_short_is_empty (dn : List RelativeDN) (h : dn.length ≤ 1) :
    ParentDN dn = "" := by
  unfold ParentDN
  rw [if_pos (by omega)]

/-- Witness: `parentDN_short_is_empty` at the single-component DN `DC=com`. -/
theorem parentDN_short_is_empty_witness :
    ParentDN [[⟨"DC", "com"⟩]] = "" :=
  parentDN_short_is_empty [[⟨"DC", "com"⟩]] (by decide)

/-! ## C8 — objectExists result by match count -/

/-- C8: `ObjectExists` fails with the too-many-results error whenever the
existence search matches two or more entries — never answering `true` — and
returns `false` without error on zero matches and `true` without error on
exactly one match. -/
theorem objectExists_match_count (dir : Directory) (objectDN objectClass : String) :
    (2 ≤ (searchClassDN dir objectClass objectDN).length →
      ObjectExists dir objectDN objectClass =
        .error (tooManyResultsMsg (searchClassDN dir objectClass objectDN).length)) ∧
    ((searchClassDN dir objectClass objectDN).length = 0 →
      ObjectExists dir objectDN objectClass = .ok false) ∧
    ((searchClassDN dir objectClass objectDN).length = 1 →
      ObjectExists dir objectDN objectClass = .ok true) := by
  unfold ObjectExists
  refine ⟨fun h => ?_, fun h => ?_, fun h => ?_⟩
  · rw [if_pos (by omega)]
  · rw [if_neg (by omega), if_pos h]
  · rw [if_neg (by omega), if_neg (by omega)]

/-- Witness: `objectExists_match_count` on a duplicated DN (error), an absent
DN (`false`) and a unique DN (`true`). -/
theorem objectExists_match_count_witness :
    ObjectExists dupDir "CN=dup,DC=b" "*" = .error (tooManyResultsMsg 2) ∧
    ObjectExists dupDir "CN=none,DC=b" "*" = .ok false ∧
    ObjectExists sampleDir "CN=a,OU=x,DC=b" "*" = .ok true :=
  ⟨(objectExists_match_count dupDir "CN=dup,DC=b" "*").1 (by decide),
   (objectExists_match_count dupDir "CN=none,DC=b" "*").2.1 (by decide),
   (objectExists_match_count sampleDir "CN=a,OU=x,DC=b" "*").2.2 (by decide)⟩

/-! ## C2 — Move discards the delegate's error -/

/-- C2: at the failing input — `sampleEntry` (`CN=a,OU=x,DC=b`) moved to the
non-existent container `OU=y,DC=b` — the delegate `ChangeDN` fails with the
non-existent-container error, yet `Move` returns success having issued no
request, because the Go code discards `ChangeDN`'s return value. -/
theorem move_ok_despite_missing_container :
    ContainerExists sampleDir "OU=y,DC=b" = .ok false ∧
    ChangeDN sampleDir sampleEntry "CN=a,OU=y,DC=b" =
      .error "cannot move object CN=a,OU=x,DC=b to non-existent or non-container object OU=y,DC=b" ∧
    Move sampleDir sampleEntry "OU=y,DC=b" = .ok [] := by
  decide

/-! ## C1 — changeDN -/

/-- C1 (counterexample): `sampleEntry` exists in `sampleDir` at its own DN, so
calling `ChangeDN` with the new DN equal to the entry's current DN hits the
existence pre-check — which runs before the old/new DN comparison — and fails
with the already-exists error instead of being a successful no-op. -/
theorem changeDN_same_dn_already_exists :
    sampleEntry.dn = "CN=a,OU=x,DC=b" ∧
    ObjectExists sampleDir "CN=a,OU=x,DC=b" "*" = .ok true ∧
    ChangeDN sampleDir sampleEntry "CN=a,OU=x,DC=b" =
      .error "rename failed: an object with distinguishedName CN=a,OU=x,DC=b already exists" := by
  decide

/-- C1 (amended): `ChangeDN` checks first, for every call, that no object
exists at the new full DN (so a new DN equal to the current DN of an existing
entry is rejected rather than a no-op).  When that pre-check passes: equal DNs
issue nothing and succeed; a changed DN under an unchanged parent string
issues a single modify-DN request with an empty superior, skipping the
container check; a changed parent requires the new parent to exist as a
container and then issues a single modify-DN request carrying it as
superior. -/
theorem changeDN_cases (dir : Directory) (e : LdapEntry)
    (newDNs : String) (oldD newD : List RelativeDN)
    (hOld : ParseDN e.dn = .ok oldD) (hNew : ParseDN newDNs = .ok newD)
    (hNE : ObjectExists dir newDNs "*" = .ok false) :
    (DNEqual oldD newD = true → ChangeDN dir e newDNs = .ok []) ∧
    (DNEqual oldD newD = false → ParentDN oldD = ParentDN newD →
      ChangeDN dir e newDNs = .ok [Op.modifyDN e.dn (RDN newD) true ""]) ∧
    (DNEqual oldD newD = false → ParentDN oldD ≠ ParentDN newD →
      ContainerExists dir (ParentDN newD) = .ok false →
      ChangeDN dir e newDNs = .error ("cannot move object " ++ e.dn ++
        " to non-existent or non-container object " ++ ParentDN newD)) ∧
    (DNEqual oldD newD = false → ParentDN oldD ≠ ParentDN newD →
      ContainerExists dir (ParentDN newD) = .ok true →
      ChangeDN dir e newDNs = .ok [Op.modifyDN e.dn (RDN newD) true (ParentDN newD)]) := by
  unfold ChangeDN
  rw [hNE, hOld, hNew]
  refine ⟨fun h1 => ?_, fun h1 h2 => ?_, fun h1 h2 h3 => ?_, fun h1 h2 h3 => ?_⟩
  · simp [h1]
  · simp [h1, h2]
  · simp [h1, h2, h3]
  · simp [h1, h2, h3]

/-- Witness: `changeDN_cases` in the rename-in-place case — `CN=a,OU=x,DC=b`
renamed to the free DN `CN=c,OU=x,DC=b`: one modify-DN request, empty
superior. -/
theorem changeDN_cases_witness :
    ChangeDN sampleDir sampleEntry "CN=c,OU=x,DC=b" =
      .ok [Op.modifyDN "CN=a,OU=x,DC=b" "CN=c" true ""] :=
  (changeDN_cases sampleDir sampleEntry "CN=c,OU=x,DC=b"
      [[⟨"CN", "a"⟩], [⟨"OU", "x"⟩], [⟨"DC", "b"⟩]]
      [[⟨"CN", "c"⟩], [⟨"OU", "x"⟩], [⟨"DC", "b"⟩]]
      (by decide) (by decide) (by decide)).2.1 (by decide) (by decide)

/-! ## C3 — updateAttributes and the unrefreshed cache -/

theorem updateAttributes_eq_nil_iff (e : LdapEntry)
    (m : List (String × List String)) :
    UpdateAttributes e m = [] ↔
      ∀ p ∈ m, stringSlicesEqual (entryGetAttributeValues e p.1) p.2 = true := by
  unfold UpdateAttributes
  constructor
  · intro h p hp
    by_contra hne
    have hmem : p ∈ m.filter
        fun q => !stringSlicesEqual (entryGetAttributeValues e q.1) q.2 := by
      rw [List.mem_filter]
      exact ⟨hp, by simp [Bool.not_eq_true] at hne ⊢; exact hne⟩
    have hfne : (m.filter
        fun q => !stringSlicesEqual (entryGetAttributeValues e q.1) q.2) ≠ [] :=
      List.ne_nil_of_mem hmem
    rw [if_neg (by simp [hfne])] at h
    simp at h
  · intro h
    have hfil : (m.filter
        fun q => !stringSlicesEqual (entryGetAttributeValues e q.1) q.2) = [] := by
      rw [List.filter_eq_nil_iff]
      intro a ha
      simp [h a ha]
    simp [hfil]

/-- C3 (counterexample): an entry whose cached `description` is `["x"]`,
updated twice in succession with `["y"]`.  `UpdateAttributes` issues a modify
request on **both** calls — the write never reconciles the cached entry, so
the second call sees the same stale cache — for a total of two protocol
writes, not the claimed one. -/
theorem updateAttributes_twice_two_writes :
    UpdateAttributes staleEntry [("description", ["y"])] =
      [Op.modify "CN=a,DC=b" [Change.replace "description" ["y"]]] ∧
    (UpdateAttributes staleEntry [("description", ["y"])] ++
      UpdateAttributes staleEntry [("description", ["y"])]).length = 2 ∧
    (UpdateAttributes staleEntry [("description", ["y"])] ++
      UpdateAttributes staleEntry [("description", ["y"])]).length ≠ 1 := by
  decide

/-- C3 (amended): each `UpdateAttributes` call replaces only the attributes
whose new value list differs from the cached one as an unordered (multiset)
comparison, and a call whose values all equal the cached ones issues no
request — so two successive calls with the entry's current values issue
nothing.  But a write does not update the cache: two successive calls with the
same set of changed values both issue the identical modify request — exactly
two protocol writes, never one. -/
theorem updateAttributes_stale_cache (e : LdapEntry)
    (m : List (String × List String)) :
    ((∀ p ∈ m, stringSlicesEqual (entryGetAttributeValues e p.1) p.2 = true) →
      UpdateAttributes e m ++ UpdateAttributes e m = []) ∧
    ((¬ ∀ p ∈ m, stringSlicesEqual (entryGetAttributeValues e p.1) p.2 = true) →
      (UpdateAttributes e m ++ UpdateAttributes e m).length = 2) := by
  constructor
  · intro h
    rw [(updateAttributes_eq_nil_iff e m).2 h]
    rfl
  · intro h
    have hne : UpdateAttributes e m ≠ [] :=
      fun hh => h ((updateAttributes_eq_nil_iff e m).1 hh)
    have hsplit : UpdateAttributes e m = [] ∨
        ∃ cs, UpdateAttributes e m = [Op.modify e.dn cs] := by
      simp only [UpdateAttributes]
      split
      · exact Or.inl rfl
      · exact Or.inr ⟨_, rfl⟩
    rcases hsplit with h0 | ⟨cs, hcs⟩
    · exact absurd h0 hne
    · rw [hcs]
      rfl

/-- Witness: `updateAttributes_stale_cache` with the cached value re-sent —
no request on either call. -/
theorem updateAttributes_stale_cache_witness :
    UpdateAttributes staleEntry [("description", ["x"])] ++
      UpdateAttributes staleEntry [("description", ["x"])] = [] :=
  (updateAttributes_stale_cache staleEntry [("description", ["x"])]).1 (by decide)

/-! ## C4 — password encoding -/

theorem goQuoteChar_plain (c : Char) (h1 : 0x20 ≤ c.toNat) (h2 : c.toNat ≤ 0x7e)
    (h3 : c ≠ '"') (h4 : c ≠ '\\') : goQuoteChar c = [c] := by
  have hne : ∀ d : Char, d.toNat < 0x20 → c ≠ d := by
    intro d hd he
    rw [he] at h1
    omega
  unfold goQuoteChar
  rw [if_neg h3, if_neg h4,
    if_neg (hne _ (by decide)), if_neg (hne _ (by decide)),
    if_neg (hne _ (by decide)), if_neg (hne _ (by decide)),
    if_neg (hne _ (by decide)), if_neg (hne _ (by decide)),
    if_neg (hne _ (by decide)), if_neg (by simp; omega)]

theorem flatMap_goQuoteChar_plain (l : List Char)
    (h : ∀ c ∈ l, 0x20 ≤ c.toNat ∧ c.toNat ≤ 0x7e ∧ c ≠ '"' ∧ c ≠ '\\') :
    l.flatMap goQuoteChar = l := by
  induction l with
  | nil => rfl
  | cons c cs ih =>
    obtain ⟨h1, h2, h3, h4⟩ := h c (by simp)
    simp only [List.flatMap_cons, goQuoteChar_plain c h1 h2 h3 h4,
      ih fun d hd => h d (by simp [hd])]
    rfl

/-- C4 (counterexample): `encodePassword` applies Go's `%q` quoting, which
escapes a quote character in the password, so for the one-character password
`"` the encoded bytes are UTF-16LE of `"\""` (four code units), not of the
literal quote-wrapped `"""` (three code units) the claim requires. -/
theorem encodePassword_escapes_quote :
    encodePassword "\"" = [34, 0, 92, 0, 34, 0, 34, 0] ∧
    utf16leBytes ("\"" ++ "\"" ++ "\"") = [34, 0, 34, 0, 34, 0] ∧
    encodePassword "\"" ≠ utf16leBytes ("\"" ++ "\"" ++ "\"") := by
  decide

/-- C4 (amended): for passwords of printable ASCII characters containing no
quote and no backslash, Go quoting degenerates to literal quote-wrapping and
`encodePassword p` is exactly UTF-16LE of `"\"" ++ p ++ "\""`; and when the
`unicodePwd` cache is empty (the attribute is never readable), `SetPassword`
issues exactly one modify request carrying that single encoded value.  For
other passwords `%q` inserts escape sequences and the bit-for-bit equation
fails, as the counterexample shows. -/
theorem encodePassword_plain_ascii (p : String)
    (h : ∀ c ∈ p.data, 0x20 ≤ c.toNat ∧ c.toNat ≤ 0x7e ∧ c ≠ '"' ∧ c ≠ '\\')
    (e : LdapEntry) (hc : entryGetAttributeValues e "unicodePwd" = []) :
    encodePassword p = utf16leBytes ("\"" ++ p ++ "\"") ∧
    SetPassword e p =
      [Op.modify e.dn [Change.replace "unicodePwd" [encodePasswordValue p]]] := by
  constructor
  · have hq : goQuote p = "\"" ++ p ++ "\"" := by
      unfold goQuote
      rw [flatMap_goQuoteChar_plain p.data h]
      cases p
      rfl
    unfold encodePassword
    rw [hq]
  · unfold SetPassword UpdateAttribute UpdateAttributes
    simp [hc, stringSlicesEqual, sortStrings, List.insertionSort, List.orderedInsert]

/-- Witness: `encodePassword_plain_ascii` at the password `abc` and an entry
with an empty cache. -/
theorem encodePassword_plain_ascii_witness :
    encodePassword "abc" = utf16leBytes ("\"" ++ "abc" ++ "\"") ∧
    SetPassword sampleEntry "abc" =
      [Op.modify "CN=a,OU=x,DC=b"
        [Change.replace "unicodePwd" [encodePasswordValue "abc"]]] :=
  encodePassword_plain_ascii "abc" (by decide) sampleEntry (by decide)

/-! ## C7 — service principals as a set -/

theorem sliceIsSubset_singleton_mem (l : List String) (x : String) (h : x ∈ l) :
    sliceIsSubset l [x] = true := by
  unfold sliceIsSubset
  by_cases h1 : ([x] : List String).length = l.length
  · rw [if_pos h1]
    obtain ⟨y, rfl⟩ := List.length_eq_one.mp h1.symm
    rw [List.mem_singleton.mp h]
    simp [stringSlicesEqual]
  · rw [if_neg h1, if_neg ?_]
    · simp only [List.all_cons, List.all_nil, Bool.and_true]
      rw [List.any_eq_true]
      exact ⟨x, h, by simp⟩
    · have : 1 ≤ l.length := List.length_pos.mpr (List.ne_nil_of_mem h)
      simp only [List.length_singleton]
      omega

/-- C7: with the service-principal attribute cached on the account entry:
adding an SPN value already present fails with the already-has-value error
while issuing no request (the multi-valued set is untouched); removing an SPN
value not present succeeds silently with no request; removing a present value
issues exactly one modify request with a value-level delete of just that
value. -/
theorem servicePrincipal_set_semantics (dir : Directory) (e : LdapEntry)
    (spn : String) :
    (spn ∈ entryGetAttributeValues e "servicePrincipalName" →
      AddServicePrincipal e spn =
        .error "attribute servicePrincipalName with value already exists") ∧
    ((e.attrs.any fun a => a.name = "servicePrincipalName") = true →
      spn ∉ entryGetAttributeValues e "servicePrincipalName" →
      RemoveServicePrincipal dir e spn = .ok []) ∧
    ((e.attrs.any fun a => a.name = "servicePrincipalName") = true →
      spn ∈ entryGetAttributeValues e "servicePrincipalName" →
      RemoveServicePrincipal dir e spn =
        .ok [Op.modify e.dn [Change.delVals "servicePrincipalName" [spn]]]) := by
  have hGet : (e.attrs.any fun a => a.name = "servicePrincipalName") = true →
      GetAttributeValuesW dir e "servicePrincipalName" =
        .ok (entryGetAttributeValues e "servicePrincipalName", e) := by
    intro hA
    unfold GetAttributeValuesW
    simp [hA]
  refine ⟨fun h => ?_, fun hA h => ?_, fun hA h => ?_⟩
  · unfold AddServicePrincipal AddAttributeWithValues HasAttributeWithValues
    rw [if_pos (sliceIsSubset_singleton_mem _ _ h)]
    rfl
  · unfold RemoveServicePrincipal HasServicePrincipal
    rw [hGet hA]
    have : ((entryGetAttributeValues e "servicePrincipalName").any (· = spn)) = false := by
      rw [List.any_eq_false]
      intro x hx
      simp only [decide_eq_true_eq]
      intro hxe
      exact h (hxe ▸ hx)
    simp [this]
  · unfold RemoveServicePrincipal HasServicePrincipal
    rw [hGet hA]
    have : ((entryGetAttributeValues e "servicePrincipalName").any (· = spn)) = true := by
      rw [List.any_eq_true]
      exact ⟨spn, h, by simp⟩
    simp [this, RemoveAttributeValue]

/-- Witness: `servicePrincipal_set_semantics` on `spnEntry` (cached SPNs
`HTTP/a`, `HTTP/b`): re-adding `HTTP/a` errors, removing `HTTP/zzz` is a
silent no-op, removing `HTTP/a` issues the value-level delete. -/
theorem servicePrincipal_set_semantics_witness :
    AddServicePrincipal spnEntry "HTTP/a" =
      .error "attribute servicePrincipalName with value already exists" ∧
    RemoveServicePrincipal [] spnEntry "HTTP/zzz" = .ok [] ∧
    RemoveServicePrincipal [] spnEntry "HTTP/a" =
      .ok [Op.modify "CN=svc,DC=b"
        [Change.delVals "servicePrincipalName" ["HTTP/a"]]] :=
  ⟨(servicePrincipal_set_semantics [] spnEntry "HTTP/a").1 (by decide),
   (servicePrincipal_set_semantics [] spnEntry "HTTP/zzz").2.1 (by decide) (by decide),
   (servicePrincipal_set_semantics [] spnEntry "HTTP/a").2.2 (by decide) (by decide)⟩

/-! ## C10 — single-value attribute access -/

/-- C10: `GetAttributeValue` returns the first of the values
`GetAttributeValues` yields, or the empty string with no error when there are
none; the fetch itself succeeds whenever the entry's DN matches exactly one
directory object, so an absent attribute is never reported as an error; and at
the concrete states, an entry whose `mail` attribute is entirely absent and an
entry whose `mail` first value is the empty string both observably return
`("", no error)`. -/
theorem getAttributeValue_first_or_empty (dir : Directory) (e : LdapEntry)
    (name : String) :
    (∀ vals e2, GetAttributeValuesW dir e name = .ok (vals, e2) →
      GetAttributeValue dir e name = .ok (vals.headD "", e2)) ∧
    (∀ o, searchClassDN dir "*" e.dn = [o] →
      ∃ r, GetAttributeValuesW dir e name = .ok r) ∧
    GetAttributeValue userDir userEntry "mail" =
      .ok ("", ⟨"CN=u,DC=b", [⟨"cn", ["u"]⟩], ["cn", "mail"]⟩) ∧
    GetAttributeValue userDir emptyMailEntry "mail" = .ok ("", emptyMailEntry) := by
  refine ⟨fun vals e2 h => ?_, fun o h => ?_, by decide, by decide⟩
  · unfold GetAttributeValue
    rw [h]
    cases vals <;> rfl
  · unfold GetAttributeValuesW
    by_cases hA : (e.attrs.any fun a => a.name = name) = true
    · exact ⟨_, by rw [if_pos hA]⟩
    · rw [if_neg hA]
      unfold GetObjectByDN
      rw [h]
      exact ⟨_, rfl⟩

/-- Witness: `getAttributeValue_first_or_empty` — the first-value projection
applied at `userEntry`'s cached `cn`. -/
theorem getAttributeValue_first_or_empty_witness :
    GetAttributeValue userDir userEntry "cn" = .ok ("", userEntry) ∨
    GetAttributeValue userDir userEntry "cn" = .ok ("u", userEntry) :=
  Or.inr ((getAttributeValue_first_or_empty userDir userEntry "cn").1
    ["u"] userEntry (by decide))

/-! ## Round-trip machinery: parsing a canonically serialized DN -/

theorem parseLoop_plain (cs : List Char) (h : ∀ c ∈ cs, plainChar c) :
    ∀ (rest buf : List Char) (curType : String)
      (curAttrs : List AttributeTypeAndValue) (acc : List RelativeDN),
      ParseDNLoop (cs ++ rest) false buf 0 curType curAttrs acc =
        ParseDNLoop rest false (cs.reverse ++ buf) 0 curType curAttrs acc := by
  induction cs with
  | nil => intro rest buf curType curAttrs acc; simp
  | cons c cs ih =>
    intro rest buf curType curAttrs acc
    obtain ⟨h1, h2, h3, h4, h5, h6⟩ := h c (by simp)
    have hrec := ih (fun d hd => h d (by simp [hd])) rest (c :: buf) curType curAttrs acc
    calc ParseDNLoop (c :: cs ++ rest) false buf 0 curType curAttrs acc
        = ParseDNLoop (cs ++ rest) false (c :: buf) 0 curType curAttrs acc := by
          simp [ParseDNLoop, h1, h2, h3, h4, h5]
      _ = ParseDNLoop rest false (cs.reverse ++ (c :: buf)) 0 curType curAttrs acc := hrec
      _ = ParseDNLoop rest false ((c :: cs).reverse ++ buf) 0 curType curAttrs acc := by
          simp

theorem parseLoop_end (buf : List Char) (curType : String) (h : curType ≠ "")
    (curAttrs : List AttributeTypeAndValue) (acc : List RelativeDN) :
    ParseDNLoop [] false buf 0 curType curAttrs acc =
      .ok (acc ++ [curAttrs ++ [⟨curType, strFromBuffer buf 0⟩]]) := by
  simp [ParseDNLoop, h]

theorem parseLoop_eq_step (cs : List Char) (h : cs.headD ' ' ≠ '#')
    (buf : List Char) (trail : Nat) (curType : String)
    (curAttrs : List AttributeTypeAndValue) (acc : List RelativeDN) :
    ParseDNLoop ('=' :: cs) false buf trail curType curAttrs acc =
      ParseDNLoop cs false [] 0 (strFromBuffer buf trail) curAttrs acc := by
  have h' : cs.head?.getD ' ' ≠ '#' := by
    cases cs with
    | nil => decide
    | cons v vs => simpa using h
  simp [ParseDNLoop, h']

theorem parseLoop_comma (cs buf : List Char) (trail : Nat) (curType : String)
    (h : curType ≠ "") (curAttrs : List AttributeTypeAndValue)
    (acc : List RelativeDN) :
    ParseDNLoop (',' :: cs) false buf trail curType curAttrs acc =
      ParseDNLoop cs false [] 0 "" []
        (acc ++ [curAttrs ++ [⟨curType, strFromBuffer buf trail⟩]]) := by
  simp [ParseDNLoop, h]

theorem strFromBuffer_reverse (l : List Char) :
    strFromBuffer (l.reverse ++ []) 0 = String.mk l := by
  simp [strFromBuffer]

theorem segmentOf_single_data (a : AttributeTypeAndValue) :
    (segmentOf [a]).data = a.ty.data ++ '=' :: a.value.data := by
  show ((a.ty ++ "=") ++ a.value).data = _
  rw [string_data_append, string_data_append]
  simp

theorem joinRDNs_cons_data (r : RelativeDN) (rest : List RelativeDN)
    (h : rest ≠ []) :
    (JoinRDNs (r :: rest)).data =
      (segmentOf r).data ++ ',' :: (JoinRDNs rest).data := by
  cases rest with
  | nil => exact absurd rfl h
  | cons r2 rest2 =>
    show ((segmentOf r ++ ",") ++ JoinRDNs (r2 :: rest2)).data = _
    rw [string_data_append, string_data_append]
    simp

theorem parseLoop_joinRDNs (D : List RelativeDN)
    (h : ∀ r ∈ D, r.length = 1 ∧ ∀ a ∈ r, goodATV a) (hne : D ≠ []) :
    ∀ acc, ParseDNLoop (JoinRDNs D).data false [] 0 "" [] acc = .ok (acc ++ D) := by
  induction D with
  | nil => exact absurd rfl hne
  | cons r rest ih =>
    intro acc
    obtain ⟨hlen, hgood⟩ := h r (by simp)
    obtain ⟨a, rfl⟩ := List.length_eq_one.mp hlen
    obtain ⟨hty, htyc, hvc⟩ := hgood a (by simp)
    have hbuf : strFromBuffer (a.ty.data.reverse ++ []) 0 = a.ty := by
      rw [strFromBuffer_reverse]
    have hvalbuf : strFromBuffer (a.value.data.reverse ++ []) 0 = a.value := by
      rw [strFromBuffer_reverse]
    have hvhead : a.value.data.headD ' ' ≠ '#' := by
      cases hv : a.value.data with
      | nil => decide
      | cons v vs =>
        simp only [List.headD_cons]
        exact (hvc v (by rw [hv]; simp)).2.2.2.2.2
    cases rest with
    | nil =>
      have hJ : (JoinRDNs [[a]]).data = a.ty.data ++ ('=' :: a.value.data) := by
        rw [show JoinRDNs [[a]] = segmentOf [a] from rfl, segmentOf_single_data]
      rw [hJ, parseLoop_plain a.ty.data htyc, parseLoop_eq_step a.value.data hvhead,
        hbuf, show a.value.data = a.value.data ++ [] from (List.append_nil _).symm,
        parseLoop_plain a.value.data hvc, parseLoop_end _ _ hty, hvalbuf]
      rfl
    | cons r2 rest2 =>
      have hJ : (JoinRDNs ([a] :: r2 :: rest2)).data =
          a.ty.data ++ ('=' :: (a.value.data ++
            (',' :: (JoinRDNs (r2 :: rest2)).data))) := by
        rw [joinRDNs_cons_data [a] (r2 :: rest2) (by simp), segmentOf_single_data]
        simp
      have hvhead2 : (a.value.data ++
          (',' :: (JoinRDNs (r2 :: rest2)).data)).headD ' ' ≠ '#' := by
        cases hv : a.value.data with
        | nil => simp
        | cons v vs =>
          simp only [List.cons_append, List.headD_cons]
          exact (hvc v (by rw [hv]; simp)).2.2.2.2.2
      have hrest := ih (fun r' hr' => h r' (by simp [hr'])) (by simp)
      rw [hJ, parseLoop_plain a.ty.data htyc, parseLoop_eq_step _ hvhead2, hbuf,
        parseLoop_plain a.value.data hvc, parseLoop_comma _ _ _ _ hty, hvalbuf,
        show ([] ++ [(⟨a.ty, a.value⟩ : AttributeTypeAndValue)]) = [a] from rfl,
        hrest (acc ++ [[a]])]
      simp

theorem joinRDNs_data_ne_nil (D : List RelativeDN) (hne : D ≠ [])
    (h : ∀ r ∈ D, r.length = 1 ∧ ∀ a ∈ r, goodATV a) : (JoinRDNs D).data ≠ [] := by
  cases D with
  | nil => exact absurd rfl hne
  | cons r rest =>
    obtain ⟨hlen, hgood⟩ := h r (by simp)
    obtain ⟨a, rfl⟩ := List.length_eq_one.mp hlen
    obtain ⟨hty, _, _⟩ := hgood a (by simp)
    have htyd : a.ty.data ≠ [] := by
      intro hc
      exact hty (by rw [show a.ty = String.mk a.ty.data from rfl, hc])
    cases rest with
    | nil =>
      rw [show JoinRDNs [[a]] = segmentOf [a] from rfl, segmentOf_single_data]
      simp [htyd]
    | cons r2 rest2 =>
      rw [joinRDNs_cons_data [a] (r2 :: rest2) (by simp), segmentOf_single_data]
      simp [htyd]

/-- For a canonical DN, parsing its serialization returns exactly its
components. -/
theorem parseDN_joinRDNs (D : List RelativeDN) (h : canonicalDN D) :
    ParseDN (JoinRDNs D) = .ok D := by
  obtain ⟨hne, hall⟩ := h
  unfold ParseDN
  rw [if_neg (joinRDNs_data_ne_nil D hne hall)]
  exact parseLoop_joinRDNs D hall hne []

theorem atvEqual_refl (a : AttributeTypeAndValue) : atvEqual a a = true := by
  simp [atvEqual]

theorem hasAllAttributes_refl (l : List AttributeTypeAndValue) :
    hasAllAttributes l l = true := by
  rw [hasAllAttributes, List.all_eq_true]
  intro a ha
  rw [List.any_eq_true]
  exact ⟨a, ha, atvEqual_refl a⟩

theorem rdnEqual_refl (r : RelativeDN) : rdnEqual r r = true := by
  simp [rdnEqual, hasAllAttributes_refl]

theorem zipAll_rdnEqual_refl (D : List RelativeDN) :
    ((D.zip D).all fun p => rdnEqual p.1 p.2) = true := by
  induction D with
  | nil => rfl
  | cons r rest ih => simp [List.zip_cons_cons, rdnEqual_refl, ih]

theorem dnEqual_refl (D : List RelativeDN) : DNEqual D D = true := by
  simp [DNEqual, zipAll_rdnEqual_refl]

/-! ## C6 — parse/serialize round trip -/

/-- C6 (counterexample): the valid DN string `OU=a\,b,DC=c` (an escaped comma
in the first value) parses to two components, but `JoinRDNs` does not
re-escape, so the serialization `OU=a,b,DC=c` does not even parse — the
round-trip result is not component-wise equal to the original under any
relation. -/
theorem dn_roundtrip_escaped_fails :
    ParseDN "OU=a\\,b,DC=c" = .ok [[⟨"OU", "a,b"⟩], [⟨"DC", "c"⟩]] ∧
    JoinRDNs [[⟨"OU", "a,b"⟩], [⟨"DC", "c"⟩]] = "OU=a,b,DC=c" ∧
    ParseDN "OU=a,b,DC=c" = .error "incomplete type, value pair" := by
  decide

/-- C6 (amended): for DN strings in canonical form — each component a single
`type=value` pair whose type is non-empty and whose type and value contain
none of the characters the grammar treats specially (comma, plus, equals,
backslash, space, hash) — serializing the parse returns the identical
component list, so the round trip holds (and the resulting DN is equal to the
original under the DN equality relation).  For valid DN strings containing
escapes the round trip fails, as the counterexample shows. -/
theorem dn_roundtrip_canonical (D : List RelativeDN) (h : canonicalDN D) :
    ParseDN (JoinRDNs D) = .ok D ∧
    ∀ D2, ParseDN (JoinRDNs D) = .ok D2 → DNEqual D D2 = true := by
  refine ⟨parseDN_joinRDNs D h, fun D2 h2 => ?_⟩
  have : D2 = D := by
    have := (parseDN_joinRDNs D h) ▸ h2
    exact (Except.ok.injEq _ _ ▸ this).symm
  rw [this]
  exact dnEqual_refl D

/-- Witness: `dn_roundtrip_canonical` at the canonical DN
`OU=a,OU=b,DC=c`. -/
theorem dn_roundtrip_canonical_witness :
    ParseDN (JoinRDNs canonDN) = .ok canonDN ∧
    DNEqual canonDN canonDN = true :=
  ⟨(dn_roundtrip_canonical canonDN (by decide)).1,
   (dn_roundtrip_canonical canonDN (by decide)).2 canonDN
     (dn_roundtrip_canonical canonDN (by decide)).1⟩

/-! ## C9 — recursive OU creation -/

/-- C9 (counterexample): the precondition holds — the parsed search base
`OU=x\,DC\=y` is a strict ancestor of the parsed two-component input DN
`OU=p,OU=x\,DC\=y` and exists in the directory — yet with fuel 20, far above
the claimed bound of one call per DN component, the recursion still exhausts
its fuel: `ParentDN` re-serializes the parent without re-escaping, so the
recursion walks `OU=x,DC=y` (which is not the base), then `DC=y`, then the
empty string, whose parent is again the empty string — the descent never
reaches an existing ancestor and the depth bound fails. -/
theorem createOUAndParents_escaped_unbounded :
    AncestorOf ((ParseDN escBase).toOption.getD [])
      ((ParseDN escDN).toOption.getD []) = true ∧
    ObjectExists escDir escBase "*" = .ok true ∧
    ((ParseDN escDN).toOption.getD []).length = 2 ∧
    CreateOUAndParents escBase escDir 20 escDN = none := by
  decide

/-- C9 (amended): for an input DN in canonical form (no characters requiring
escapes), when some strict ancestor — at the latest the search base, given as
the suffix after dropping `k` of the DN's components — already exists in the
directory, `CreateOUAndParents` finishes within fuel bounded by the DN's
component count: each recursive call operates on the immediate parent, which
has exactly one fewer component, and the recursion stops at the existing
ancestor.  For DNs whose serialization loses escaping the bound fails, as the
counterexample shows. -/
theorem createOUAndParents_canonical_bounded (dir : Directory) (base : String) :
    ∀ (D : List RelativeDN) (k fuel : Nat), canonicalDN D → 1 ≤ k →
      k < D.length →
      ObjectExists dir (JoinRDNs (D.drop k)) "*" = .ok true →
      D.length < fuel →
      CreateOUAndParents base dir fuel (JoinRDNs D) ≠ none := by
  intro D
  induction D with
  | nil =>
    intro k fuel _ hk1 hk2 _ _
    simp at hk2
  | cons r rest ih =>
    intro k fuel hcan hk1 hk2 hex hfuel
    cases fuel with
    | zero => simp at hfuel
    | succ f =>
      have hparse : ParseDN (JoinRDNs (r :: rest)) = .ok (r :: rest) :=
        parseDN_joinRDNs _ hcan
      have hk2' : k < rest.length + 1 := by simpa using hk2
      have hparent : ParentDN (r :: rest) = JoinRDNs rest := by
        unfold ParentDN
        rw [if_neg (by simp; omega)]
        rfl
      simp only [CreateOUAndParents, hparse, hparent]
      cases hOE : ObjectExists dir (JoinRDNs rest) "*" with
      | error m => simp
      | ok b =>
        cases b with
        | true => simp
        | false =>
          simp only [Bool.false_eq_true, if_false]
          cases k with
          | zero => omega
          | succ k' =>
            cases k' with
            | zero =>
              exfalso
              have hx : ObjectExists dir (JoinRDNs rest) "*" = .ok true := hex
              rw [hx] at hOE
              simp at hOE
            | succ k'' =>
              have hrestcan : canonicalDN rest := by
                refine ⟨?_, fun r' hr' => hcan.2 r' (by simp [hr'])⟩
                intro hc
                rw [hc] at hk2'
                simp at hk2'
              have hrec := ih (k'' + 1) f hrestcan (by omega) (by omega)
                hex (by simpa using hfuel)
              cases hR : CreateOUAndParents base dir f (JoinRDNs rest) with
              | none => exact absurd hR hrec
              | some p => simp [hR]

/-- Witness: `createOUAndParents_canonical_bounded` at the canonical DN
`OU=a,OU=b,DC=c` over a directory holding the existing base `DC=c`, with fuel
4 = component count + 1. -/
theorem createOUAndParents_canonical_bounded_witness :
    CreateOUAndParents "DC=c" domainDir 4 (JoinRDNs canonDN) ≠ none :=
  createOUAndParents_canonical_bounded domainDir "DC=c" canonDN 2 4
    (by decide) (by decide) (by decide) (by decide) (by decide)

end Adldap
